import Mathlib

/-!
Verification development for the GC-MOX thermal-modulation sampling and
spectral feature extraction engine.

The definitions below are shallow embeddings of the C sources:
- `dftMean`, `dftRe`, `dftIm`, `dftMag`, `dft_print_mags`, `dft_mags_dc_removed`
  embed the direct DFT routines `dft_print` (rolling hysteresis variant) and
  `dft_mags_dc_removed` (dual-sensor FFT variant);
- `top3_step`, `top3_peaks`, `peak_out` embed `top3_peaks`;
- namespace `Part001` embeds the rolling hysteresis + multi-cycle FFT main loop;
- namespace `Forced2Fft` embeds the dual-sensor square-wave FFT main loop;
- namespace `Ratio2Gas` embeds the dual-sensor high/low ratio main loop;
- namespace `ProfileFft` embeds the symmetric thermal-profile feature loop;
- namespace `Sweep2` embeds the swept square-wave segment controller;
- namespace `Forced2Gas` embeds the constant-temperature raw logging loop.

Machine `double` values are modelled as real numbers; `uint64_t` millisecond
counters as naturals reduced modulo 2 ^ 64 where the source increments them.
Sensor transactions are external, so each loop takes an oracle assigning to
each measurement attempt either a resistance value or a communication failure
(`Option ℝ`, with `none` for any failed transaction or zero-field read).
-/

noncomputable section

namespace GCMox

/-- One 64-bit wraparound modulus for the uint64 millisecond arithmetic. -/
def U64 : ℕ := 2 ^ 64

/-! ## Spectral Analyzer

Both DFT routines subtract the arithmetic mean, then for each bin k compute
re = (1/N) * sum x[n] (minus mean) * cos(-2 pi k n / N), similarly im with sin,
and emit sqrt (re * re + im * im). -/

/-- Arithmetic mean of the first N entries, as computed by both DFT routines. -/
def dftMean (x : ℕ → ℝ) (N : ℕ) : ℝ :=
  (∑ i ∈ Finset.range N, x i) / N

/-- Real part of bin k of the mean-subtracted direct transform, divided by N. -/
def dftRe (x : ℕ → ℝ) (N k : ℕ) : ℝ :=
  (∑ n ∈ Finset.range N,
    (x n - dftMean x N) * Real.cos (-2 * Real.pi * k * n / N)) / N

/-- Imaginary part of bin k of the mean-subtracted direct transform, divided by N. -/
def dftIm (x : ℕ → ℝ) (N k : ℕ) : ℝ :=
  (∑ n ∈ Finset.range N,
    (x n - dftMean x N) * Real.sin (-2 * Real.pi * k * n / N)) / N

/-- Magnitude of bin k: sqrt (re * re + im * im). -/
def dftMag (x : ℕ → ℝ) (N k : ℕ) : ℝ :=
  Real.sqrt (dftRe x N k * dftRe x N k + dftIm x N k * dftIm x N k)

/-- The spectrum printed by `dft_print` in the rolling hysteresis variant:
one magnitude per bin k = 1 .. N/2 (DC bin omitted from the record). -/
def dft_print_mags (x : ℕ → ℝ) (N : ℕ) : List ℝ :=
  (List.range' 1 (N / 2)).map fun k => dftMag x N k

/-- The spectrum produced by `dft_mags_dc_removed` in the dual-sensor variant:
one magnitude per bin k = 0 .. N/2 inclusive. -/
def dft_mags_dc_removed (x : ℕ → ℝ) (N : ℕ) : List ℝ :=
  (List.range (N / 2 + 1)).map fun k => dftMag x N k

/-! ## Peak Extractor -/

/-- The running three largest magnitudes and their bins, as held in the local
variables k1/a1, k2/a2, k3/a3 of `top3_peaks`. -/
structure Peak3 where
  k1 : ℕ
  a1 : ℝ
  k2 : ℕ
  a2 : ℝ
  k3 : ℕ
  a3 : ℝ

/-- One iteration of the `top3_peaks` scan at bin k with magnitude a:
strict greater-than comparisons against the current three leaders. -/
def top3_step (p : Peak3) (k : ℕ) (a : ℝ) : Peak3 :=
  if a > p.a1 then ⟨k, a, p.k1, p.a1, p.k2, p.a2⟩
  else if a > p.a2 then ⟨p.k1, p.a1, k, a, p.k2, p.a2⟩
  else if a > p.a3 then ⟨p.k1, p.a1, p.k2, p.a2, k, a⟩
  else p

/-- `top3_peaks`: linear scan over bins k = 1 .. bins-1 (bin 0 skipped),
starting from bins 1 with sentinel magnitude -1. -/
def top3_peaks (mags : ℕ → ℝ) (bins : ℕ) : Peak3 :=
  (List.range' 1 (bins - 1)).foldl (fun p k => top3_step p k (mags k)) ⟨1, -1, 1, -1, 1, -1⟩

/-- The (frequency, magnitude) pairs written to the PEAK record:
frequency of bin k is k * fs / N. -/
def peak_out (mags : ℕ → ℝ) (bins N : ℕ) (fs : ℝ) : List (ℝ × ℝ) :=
  let p := top3_peaks mags bins
  [(p.k1 * fs / N, p.a1), (p.k2 * fs / N, p.a2), (p.k3 * fs / N, p.a3)]

end GCMox

namespace GCMox.Part001

/-! ## Rolling hysteresis + multi-cycle FFT variant (src/unnamed/part_001)

Two-step square wave 200C/320C, S = 20 subsamples per step, hysteresis
y[i] = high[i] - low[i] per cycle, rolling 320-point FFT window over 16
cycles, FFT printed every FFT_STRIDE = 10 cycles after warmup.
The sample oracle `meas` maps the global sample index to the outcome of
`sample_gas_once`; `none` is any failed transaction or zero-field read,
on which the source jumps to its `out` label and the loop terminates. -/

def HALF_MS : ℕ := 1000

def SUB_MS : ℕ := 50

def S : ℕ := HALF_MS / SUB_MS

def FFT_CYCLES : ℕ := 16

def FFT_N : ℕ := S * FFT_CYCLES

def WARMUP_CYCLES : ℕ := 2

def FFT_STRIDE : ℕ := 10

def Fs : ℝ := 1000 / (SUB_MS : ℝ)

/-- Loop state across cycles: the rolling FFT buffer, its write cursor, the
filled latch, and the cycle counter. The buffer is a total map read only at
indices below FFT_N; it starts zero-initialised as in the source. -/
structure St where
  fft_buf : ℕ → ℝ
  fft_pos : ℕ
  fft_filled : Bool
  cycle_id : ℕ

/-- Initial state: zeroed buffer, cursor 0, not filled, cycle_id 0. -/
def st0 : St := ⟨fun _ => 0, 0, false, 0⟩

/-- Output records of this program. -/
inductive Rec where
  | feature_cycle (cycle : ℕ) (ys : List ℝ)
  | fft (cycle : ℕ) (fs : ℝ) (mags : List ℝ)

/-- Numeric tag of a record: 0 for FEATURE_CYCLE, 1 for FFT. -/
def Rec.tag : Rec → ℕ
  | .feature_cycle _ _ => 0
  | .fft _ _ _ => 1

/-- Cycle identifier carried by a record. -/
def Rec.cycle : Rec → ℕ
  | .feature_cycle c _ => c
  | .fft c _ _ => c

/-- Length of the payload list of a record. -/
def Rec.len : Rec → ℕ
  | .feature_cycle _ ys => ys.length
  | .fft _ _ mags => mags.length

/-- Collect the S samples of one step (indices base .. base+S-1); any failed
sample aborts the whole collection, as the source jumps to `out`. -/
def collectStep (meas : ℕ → Option ℝ) (base : ℕ) : Option (List ℝ) :=
  (List.range S).mapM fun i => meas (base + i)

/-- Append a list of values to the rolling FFT buffer at the write cursor,
advancing modulo FFT_N and latching the filled flag when the cursor wraps. -/
def pushList (buf : ℕ → ℝ) (pos : ℕ) (filled : Bool) : List ℝ → (ℕ → ℝ) × ℕ × Bool
  | [] => (buf, pos, filled)
  | v :: vs =>
      let buf2 := fun j => if j = pos then v else buf j
      let pos2 := (pos + 1) % FFT_N
      let filled2 := if !filled && pos2 == 0 then true else filled
      pushList buf2 pos2 filled2 vs

/-- Oldest-to-newest snapshot of the rolling buffer: x[i] = buf[(pos+i) % FFT_N]. -/
def snapshot (buf : ℕ → ℝ) (pos : ℕ) : ℕ → ℝ := fun i => buf ((pos + i) % FFT_N)

/-- One full cycle of the main loop: collect S low samples then S high samples
(failure terminates the loop, result `none`), increment the cycle counter,
print the hysteresis vector, append it to the rolling buffer, and print the
FFT when past warmup, the window is filled, and the cycle id is a multiple of
FFT_STRIDE. -/
def cycleStep (meas : ℕ → Option ℝ) (base : ℕ) (st : St) : Option (St × List Rec) :=
  match collectStep meas base, collectStep meas (base + S) with
  | some lowv, some highv =>
      let cid := st.cycle_id + 1
      let ys := List.zipWith (fun h l => h - l) highv lowv
      let p := pushList st.fft_buf st.fft_pos st.fft_filled ys
      let recs :=
        if WARMUP_CYCLES < cid ∧ p.2.2 = true ∧ cid % FFT_STRIDE = 0 then
          [Rec.feature_cycle cid ys,
           Rec.fft cid Fs (dft_print_mags (snapshot p.1 p.2.1) FFT_N)]
        else [Rec.feature_cycle cid ys]
      some (⟨p.1, p.2.1, p.2.2, cid⟩, recs)
  | _, _ => none

/-- Run n cycles of the loop; the second component is `none` when the loop
terminated early through the `out` label. Cycle c consumes the oracle at
global sample indices 2*S*c .. 2*S*c + 2*S - 1. -/
def run (meas : ℕ → Option ℝ) : ℕ → St → List Rec × Option St
  | 0, st => ([], some st)
  | Nat.succ n, st =>
      match cycleStep meas (2 * S * st.cycle_id) st with
      | none => ([], none)
      | some (st2, recs) =>
          let r := run meas n st2
          (recs ++ r.1, r.2)

end GCMox.Part001

namespace GCMox.Forced2Fft

/-! ## Dual-sensor square-wave FFT variant (forced_2_fft.c, src/unnamed/part_002)

Two sensors sampled each tick under the same heater set-point; hold-last on
failure; a 40-sample single-lap window per channel; FFT and PEAK records
emitted on window completion after two warmup windows. -/

def T_LOW_C : ℕ := 275

def T_HIGH_C : ℕ := 325

def T_SW_MS : ℕ := 200

def T_HALF_MS : ℕ := 100

def TS_MS : ℕ := 50

def FS_HZ : ℝ := 1000 / (TS_MS : ℝ)

def FFT_N : ℕ := 40

def FFT_BINS : ℕ := FFT_N / 2 + 1

def WARMUP_WINDOWS : ℕ := 2

def ADDR1 : ℕ := 0x76

def ADDR2 : ℕ := 0x77

/-- Heater set-point for a tick at rel milliseconds past the loop origin:
low while the phase within the period is below the half period, else high. -/
def heater_temp (rel : ℕ) : ℕ :=
  if rel % T_SW_MS < T_HALF_MS then T_LOW_C else T_HIGH_C

/-- Loop state: the two channel windows, the shared write index, the window
counter, and the next scheduling deadline. -/
structure St where
  x1 : ℕ → ℝ
  x2 : ℕ → ℝ
  idx : ℕ
  window_id : ℕ
  next_tick : ℕ

/-- Output records of this program. -/
inductive Rec where
  | fft (t addr : ℕ) (fs : ℝ) (mags : List ℝ)
  | peak (t addr : ℕ) (peaks : List (ℝ × ℝ))

/-- Numeric tag of a record: 0 for FFT, 1 for PEAK. -/
def Rec.tag : Rec → ℕ
  | .fft _ _ _ _ => 0
  | .peak _ _ _ => 1

/-- Store this tick's value for one channel at the write index: the sampled
value on success, else the value at the previous index (index 0 falls back
to itself), exactly as `x[idx] = x[(idx > 0) ? (idx - 1) : 0]`. -/
def storeChannel (x : ℕ → ℝ) (idx : ℕ) (r : Option ℝ) : ℕ → ℝ :=
  fun j => if j = idx then
    match r with
    | some v => v
    | none => x (if 0 < idx then idx - 1 else 0)
  else x j

/-- One tick of the main loop: sample both channels (oracle outcomes r1, r2),
store with hold-last, advance the index, and when the window is complete
increment the window counter and, past warmup, emit FFT and PEAK records for
both channels; finally advance the deadline by TS_MS. -/
def tick (st : St) (r1 r2 : Option ℝ) (t : ℕ) : St × List Rec :=
  let x1b := storeChannel st.x1 st.idx r1
  let x2b := storeChannel st.x2 st.idx r2
  let idx2 := st.idx + 1
  let nxt := (st.next_tick + TS_MS) % U64
  if FFT_N ≤ idx2 then
    let wid := st.window_id + 1
    let recs :=
      if WARMUP_WINDOWS < wid then
        [Rec.fft t ADDR1 FS_HZ (dft_mags_dc_removed x1b FFT_N),
         Rec.fft t ADDR2 FS_HZ (dft_mags_dc_removed x2b FFT_N),
         Rec.peak t ADDR1 (peak_out (dftMag x1b FFT_N) FFT_BINS FFT_N FS_HZ),
         Rec.peak t ADDR2 (peak_out (dftMag x2b FFT_N) FFT_BINS FFT_N FS_HZ)]
      else []
    (⟨x1b, x2b, 0, wid, nxt⟩, recs)
  else
    (⟨x1b, x2b, idx2, st.window_id, nxt⟩, [])

/-- Run the loop over a list of tick inputs (oracle outcome pair and the
timestamp read for the records), threading the state left to right. -/
def runTicks (inputs : List (Option ℝ × Option ℝ × ℕ)) (st : St) : St :=
  inputs.foldl (fun s inp => (tick s inp.1 inp.2.1 inp.2.2).1) st

end GCMox.Forced2Fft

namespace GCMox.Ratio2Gas

/-! ## Dual-sensor high/low ratio variant (forced_2_gas_ratio.c, src/unnamed/part_002)

Square wave 150C/320C with 200 ms period; per tick the sampled resistance is
added to the low or high accumulator of its channel; on period rollover a
ratio (mean high / mean low) is printed per channel when both counters are
nonzero, then sums and counters reset. Only channel 1 increments the
counters in the source. -/

def T_LOW_C : ℕ := 150

def T_HIGH_C : ℕ := 320

def SQ_PERIOD_MS : ℕ := 200

def HALF_MS : ℕ := 100

def TS_MS : ℕ := 25

/-- Accumulator state of the loop, plus the rollover tracker and deadline. -/
structure St where
  low1 : ℝ
  high1 : ℝ
  low2 : ℝ
  high2 : ℝ
  lowc : ℕ
  highc : ℕ
  last_cycle : ℕ
  next : ℕ

/-- Initial accumulator state with deadline t0. -/
def st0 (t0 : ℕ) : St := ⟨0, 0, 0, 0, 0, 0, 0, t0⟩

/-- An emitted ratio line: relative timestamp, address, value. -/
structure Rec where
  t : ℕ
  addr : ℕ
  value : ℝ

/-- One tick of the loop at clock reading `now` with origin t0: choose the
heater by the phase, accumulate each successful sample into its phase sum
(channel 1 alone increments the shared counters), and on a cycle change emit
both ratios, if both counters are nonzero, then reset the accumulators. -/
def tick (t0 : ℕ) (st : St) (now : ℕ) (r1 r2 : Option ℝ) : St × List Rec :=
  let rel := now - t0
  let cycle := rel / SQ_PERIOD_MS
  let phase := rel % SQ_PERIOD_MS
  let heater := if phase < HALF_MS then T_LOW_C else T_HIGH_C
  let low1 := if heater = T_LOW_C then (match r1 with | some g => st.low1 + g | none => st.low1) else st.low1
  let lowc := if heater = T_LOW_C then (match r1 with | some _ => st.lowc + 1 | none => st.lowc) else st.lowc
  let low2 := if heater = T_LOW_C then (match r2 with | some g => st.low2 + g | none => st.low2) else st.low2
  let high1 := if heater = T_LOW_C then st.high1 else (match r1 with | some g => st.high1 + g | none => st.high1)
  let highc := if heater = T_LOW_C then st.highc else (match r1 with | some _ => st.highc + 1 | none => st.highc)
  let high2 := if heater = T_LOW_C then st.high2 else (match r2 with | some g => st.high2 + g | none => st.high2)
  let nxt := (st.next + TS_MS) % U64
  if cycle ≠ st.last_cycle then
    let recs :=
      if lowc ≠ 0 ∧ highc ≠ 0 then
        [⟨rel, 0x76, (high1 / highc) / (low1 / lowc)⟩,
         ⟨rel, 0x77, (high2 / highc) / (low2 / lowc)⟩]
      else []
    (⟨0, 0, 0, 0, 0, 0, cycle, nxt⟩, recs)
  else
    (⟨low1, high1, low2, high2, lowc, highc, st.last_cycle, nxt⟩, [])

/-- Run the loop over a list of tick inputs (clock reading and the two oracle
outcomes), collecting the emitted ratio records in order. -/
def runTicks (t0 : ℕ) (inputs : List (ℕ × Option ℝ × Option ℝ)) (st : St) : St × List Rec :=
  inputs.foldl
    (fun acc inp =>
      let r := tick t0 acc.1 inp.1 inp.2.1 inp.2.2
      (r.1, acc.2 ++ r.2))
    (st, [])

end GCMox.Ratio2Gas

namespace GCMox.ProfileFft

/-! ## Symmetric thermal-profile variant (src/Time_Constant/forced_mode/forced_mode_fft.c)

Eight-step palindromic heater profile; each accepted sample is stored into a
single-shot cycle buffer; when the buffer is full the cycle counter advances
and, past the two warmup cycles, the mirrored difference vector is printed.
A failed driver transaction breaks the loop; a read with zero valid fields
leaves the state unchanged and the loop retries on the next iteration. -/

def WARMUP_CYCLES : ℕ := 2

def profile : List ℕ := [100, 175, 250, 325, 325, 250, 175, 100]

def profile_len : ℕ := 8

/-- Outcome of one iteration's driver interaction: a failed transaction, a
read returning zero valid fields, or an accepted gas resistance value. -/
inductive SampleRes where
  | err
  | nodata
  | val (g : ℝ)

/-- Loop state: single-shot cycle buffer, its fill index, the cycle counter,
and the raw sample counter. -/
structure St where
  gas_cycle : ℕ → ℝ
  cycle_index : ℕ
  cycle_id : ℕ
  sample_count : ℕ

/-- Initial state: zeroed buffer, indices 0, sample_count 1. -/
def st0 : St := ⟨fun _ => 0, 0, 0, 1⟩

/-- Output records: a raw CSV line for an accepted sample, or a
FEATURE_VEC line for a completed post-warmup cycle. -/
inductive Rec where
  | raw (sample : ℕ)
  | feature_vec (cycle : ℕ) (diffs : List ℝ)

/-- A record respects warmup when any feature vector it carries belongs to a
cycle past WARMUP_CYCLES. -/
def Rec.warmup_ok : Rec → Bool
  | .raw _ => true
  | .feature_vec c _ => decide (WARMUP_CYCLES < c)

/-- The mirrored difference vector of `print_feature_vector`:
diff[i] = gas[profile_len - 1 - i] - gas[i] for i = 0 .. profile_len/2 - 1. -/
def feature_diffs (gas : ℕ → ℝ) : List ℝ :=
  (List.range (profile_len / 2)).map fun i => gas (profile_len - 1 - i) - gas i

/-- One iteration of the sampling loop: `err` breaks the loop (`none`),
`nodata` leaves the state unchanged, and an accepted value is printed raw,
stored, and completes a cycle when the buffer index reaches the profile
length, emitting the feature vector only past warmup. -/
def step (st : St) (res : SampleRes) : Option (St × List Rec) :=
  match res with
  | .err => none
  | .nodata => some (st, [])
  | .val g =>
      let gas2 := fun j => if j = st.cycle_index then g else st.gas_cycle j
      let ci2 := st.cycle_index + 1
      if profile_len ≤ ci2 then
        let cid := st.cycle_id + 1
        let recs :=
          if WARMUP_CYCLES < cid then [Rec.feature_vec cid (feature_diffs gas2)] else []
        some (⟨gas2, 0, cid, st.sample_count + 1⟩, Rec.raw st.sample_count :: recs)
      else
        some (⟨gas2, ci2, st.cycle_id, st.sample_count + 1⟩, [Rec.raw st.sample_count])

end GCMox.ProfileFft

namespace GCMox.Sweep2

/-! ## Swept square-wave segment controller (forced_sweep_2.c, in
src/Time_Constant/forced_mode/forced_mode_fft.c)

For each configured half-period: print one SWEEP header, loop sampling both
sensors while the segment clock is below (warmup + measured cycles) * period,
printing one line per successful sample, then print one ENDSWEEP trailer. -/

def T_LOW_C : ℕ := 250

def T_HIGH_C : ℕ := 320

def TS_MS : ℕ := 10

def CYCLES_PER_FREQ : ℕ := 15

def WARMUP_CYCLES : ℕ := 3

def half_list_ms : List ℕ := [50, 75, 100, 125, 150, 200, 250, 300, 400, 500]

def ADDR1 : ℕ := 0x76

def ADDR2 : ℕ := 0x77

/-- Total running time of one segment: (warmup + measured cycles) * period. -/
def run_ms (half : ℕ) : ℕ := (WARMUP_CYCLES + CYCLES_PER_FREQ) * (2 * half)

/-- Duration of the warmup portion of one segment. -/
def warmup_ms (half : ℕ) : ℕ := WARMUP_CYCLES * (2 * half)

/-- One observed loop iteration: the segment-relative clock reading at the
loop head, the two sample outcomes, and the global timestamp printed. -/
structure Obs where
  rel : ℕ
  r1 : Option ℝ
  r2 : Option ℝ
  t : ℕ

/-- Output records of this program. -/
inductive Rec where
  | sweep (half : ℕ)
  | sample (t addr heater : ℕ) (gas : ℝ)
  | endsweep (half : ℕ)

/-- Numeric tag of a record: 0 SWEEP, 1 sample line, 2 ENDSWEEP. -/
def Rec.tag : Rec → ℕ
  | .sweep _ => 0
  | .sample _ _ _ _ => 1
  | .endsweep _ => 2

/-- Records printed by one loop iteration: one line per successful sample,
labeled with the heater set-point chosen from the segment-relative phase. -/
def tickRecs (half : ℕ) (o : Obs) : List Rec :=
  let phase := o.rel % (2 * half)
  let heater := if phase < half then T_LOW_C else T_HIGH_C
  (match o.r1 with | some g => [Rec.sample o.t ADDR1 heater g] | none => []) ++
  (match o.r2 with | some g => [Rec.sample o.t ADDR2 heater g] | none => [])

/-- The segment's while loop: keep ticking while the observed segment clock
is below run_ms; the first observation at or past run_ms ends the segment. -/
def segLoop (half : ℕ) : List Obs → List Rec
  | [] => []
  | o :: rest => if o.rel < run_ms half then tickRecs half o ++ segLoop half rest else []

/-- One whole segment: SWEEP header, the loop's sample lines, ENDSWEEP trailer. -/
def segment (half : ℕ) (obs : List Obs) : List Rec :=
  Rec.sweep half :: (segLoop half obs ++ [Rec.endsweep half])

/-- Process the remaining half-period entries starting at segment index i,
segment i consuming the observation stream obs i. -/
def segmentsFrom : List ℕ → (ℕ → List Obs) → ℕ → List Rec
  | [], _, _ => []
  | h :: t, obs, i => segment h (obs i) ++ segmentsFrom t obs (i + 1)

/-- The whole sweep run over a configured list of half-periods. -/
def runAll (halves : List ℕ) (obs : ℕ → List Obs) : List Rec :=
  segmentsFrom halves obs 0

end GCMox.Sweep2

namespace GCMox.Forced2Gas

/-! ## Constant-temperature raw logging variant
(src/GC_MOX_FFT/forced_mode/forced_2_gas.c)

Both sensors sampled each tick at a fixed 250C set-point; raw CSV lines are
printed for successful samples once the warmup sample count has passed; the
deadline advances by SAMPLE_MS each tick. -/

def HEATER_TEMP : ℕ := 250

def SAMPLE_MS : ℕ := 200

def WARMUP_SAMPLES : ℕ := 10

def ADDR1 : ℕ := 0x76

def ADDR2 : ℕ := 0x77

/-- Loop state: the tick counter and the next scheduling deadline. -/
structure St where
  sample : ℕ
  next : ℕ

/-- A raw CSV record for one successful sample. -/
structure Rec where
  t : ℕ
  addr : ℕ
  gas : ℝ

/-- One tick: sample both sensors, count the tick, print the successful
samples once past the warmup count, and advance the deadline by SAMPLE_MS. -/
def tick (st : St) (r1 r2 : Option ℝ) (t : ℕ) : St × List Rec :=
  let sample2 := st.sample + 1
  let recs :=
    if WARMUP_SAMPLES < sample2 then
      (match r1 with | some g => [⟨t, ADDR1, g⟩] | none => []) ++
      (match r2 with | some g => [⟨t, ADDR2, g⟩] | none => [])
    else []
  (⟨sample2, (st.next + SAMPLE_MS) % U64⟩, recs)

/-- Run the loop over a list of tick inputs, threading the state. -/
def runTicks (inputs : List (Option ℝ × Option ℝ × ℕ)) (st : St) : St :=
  inputs.foldl (fun s inp => (tick s inp.1 inp.2.1 inp.2.2).1) st

end GCMox.Forced2Gas

namespace GCMox

/-! ## Concrete inputs used by counterexamples and witnesses -/

/-- An oracle on which every measurement attempt succeeds with value 0. -/
def oracle0 : ℕ → Option ℝ := fun _ => some 0

/-- An oracle on which every measurement attempt fails (CommFailure). -/
def oracleFail : ℕ → Option ℝ := fun _ => none

/-- Three ticks of inputs with failing samples and timestamp 0. -/
def ticks3 : List (Option ℝ × Option ℝ × ℕ) :=
  [(none, none, 0), (none, none, 0), (none, none, 0)]

/-- A dual-sensor FFT loop state whose window has just wrapped: write index 0,
both windows holding value i + 1 at slot i (so slot 0 holds 1 and the
previous accepted value, at slot 39, is 40), past warmup. -/
def stWrap : Forced2Fft.St :=
  ⟨fun i => (i : ℝ) + 1, fun i => (i : ℝ) + 1, 0, 3, 0⟩

/-- Nine ticks of the ratio loop covering one full period and the rollover
tick: channel 1 succeeds on all nine samples (low phase value 100, high phase
value 200); channel 2 fails once, at the low-phase tick at 25 ms, and
otherwise matches channel 1. -/
def ratioTrace : List (ℕ × Option ℝ × Option ℝ) :=
  [(0, some 100, some 100), (25, some 100, none), (50, some 100, some 100),
   (75, some 100, some 100), (100, some 200, some 200), (125, some 200, some 200),
   (150, some 200, some 200), (175, some 200, some 200), (200, some 100, some 100)]

/-- A single sweep-segment observation: first loop iteration at
segment-relative time 0 (inside the warmup portion), channel 1 returning 1,
channel 2 failing, global timestamp 5. -/
def obsWarm : List Sweep2.Obs :=
  [⟨0, some 1, none, 5⟩]

end GCMox

namespace GCMox

/-- Helper: the scan of `top3_peaks` keeps all three candidate bins at least 1
whenever it starts from a state whose bins are at least 1 and only visits
bins at least 1. -/
theorem top3_foldl_ge_one (l : List ℕ) (mags : ℕ → ℝ) :
    ∀ p : Peak3, 1 ≤ p.k1 → 1 ≤ p.k2 → 1 ≤ p.k3 → (∀ k ∈ l, 1 ≤ k) →
      1 ≤ (l.foldl (fun p k => top3_step p k (mags k)) p).k1 ∧
      1 ≤ (l.foldl (fun p k => top3_step p k (mags k)) p).k2 ∧
      1 ≤ (l.foldl (fun p k => top3_step p k (mags k)) p).k3 := by
  induction l with
  | nil => intro p h1 h2 h3 _; exact ⟨h1, h2, h3⟩
  | cons k t ih =>
      intro p h1 h2 h3 hl
      have hk : 1 ≤ k := hl k (List.mem_cons_self k t)
      have ht : ∀ j ∈ t, 1 ≤ j := fun j hj => hl j (List.mem_cons_of_mem k hj)
      simp only [List.foldl_cons]
      refine ih (top3_step p k (mags k)) ?_ ?_ ?_ ht
      · unfold top3_step
        split
        · exact hk
        · split
          · exact h1
          · split
            · exact h1
            · exact h1
      · unfold top3_step
        split
        · exact h1
        · split
          · exact hk
          · split
            · exact h2
            · exact h2
      · unfold top3_step
        split
        · exact h2
        · split
          · exact h2
          · split
            · exact hk
            · exact h3

/-- Helper: every bin in the scanned range of `top3_peaks` is at least 1. -/
theorem mem_range_one_ge (n k : ℕ) (hk : k ∈ List.range' 1 n) : 1 ≤ k := by
  have := List.mem_range'_1.mp hk
  exact this.1

/-- Helper: the mean of a constant window is that constant. -/
theorem dftMean_const (N : ℕ) (c : ℝ) (hN : 0 < N) : dftMean (fun _ => c) N = c := by
  unfold dftMean
  rw [Finset.sum_const, Finset.card_range, nsmul_eq_mul]
  exact mul_div_cancel_left₀ c (Nat.cast_ne_zero.mpr hN.ne')

/-- Helper: every DFT magnitude of a constant window is 0, whatever the bin. -/
theorem dftMag_const (N k : ℕ) (c : ℝ) (hN : 0 < N) : dftMag (fun _ => c) N k = 0 := by
  have hm := dftMean_const N c hN
  have hre : dftRe (fun _ => c) N k = 0 := by
    unfold dftRe
    rw [hm]
    simp
  have him : dftIm (fun _ => c) N k = 0 := by
    unfold dftIm
    rw [hm]
    simp
  unfold dftMag
  rw [hre, him]
  simp

/-- Claim C7: for every input magnitude array, the Peak Extractor's three
returned peaks are all drawn from bins k >= 1; bin 0 (DC) is never returned,
regardless of the magnitude stored at bin 0. -/
theorem C7_peaks_never_bin0 (mags : ℕ → ℝ) (bins : ℕ) :
    1 ≤ (top3_peaks mags bins).k1 ∧ 1 ≤ (top3_peaks mags bins).k2 ∧
      1 ≤ (top3_peaks mags bins).k3 := by
  unfold top3_peaks
  exact top3_foldl_ge_one (List.range' 1 (bins - 1)) mags ⟨1, -1, 1, -1, 1, -1⟩
    (le_refl 1) (le_refl 1) (le_refl 1) (fun k hk => mem_range_one_ge (bins - 1) k hk)

/-- Claim C8: for every window in which all N samples are equal, the Spectral
Analyzer's output magnitude is 0 at every non-DC bin k in 1..N/2; in
particular every value of the emitted bin-1..N/2 spectrum is 0. -/
theorem C8_constant_window_null (N k : ℕ) (c : ℝ) (hN : 0 < N) (_hk1 : 1 ≤ k)
    (_hk2 : k ≤ N / 2) :
    dftMag (fun _ => c) N k = 0 ∧ ∀ m ∈ dft_print_mags (fun _ => c) N, m = 0 := by
  refine ⟨dftMag_const N k c hN, ?_⟩
  intro m hm
  unfold dft_print_mags at hm
  obtain ⟨j, _, rfl⟩ := List.mem_map.mp hm
  exact dftMag_const N j c hN

/-- Witness for C8 at N = 4, c = 5, k = 1. -/
theorem C8_constant_window_null_witness :
    0 < 4 ∧ 1 ≤ 1 ∧ 1 ≤ 4 / 2 ∧
      (dftMag (fun _ => (5 : ℝ)) 4 1 = 0 ∧
        ∀ m ∈ dft_print_mags (fun _ => (5 : ℝ)) 4, m = 0) :=
  ⟨by decide, by decide, by decide,
    C8_constant_window_null 4 1 5 (by decide) (by decide) (by decide)⟩

/-- Claim C6 counterexample: the rolling hysteresis variant's `dft_print`
emits the bins k = 1..N/2 only, so at its window capacity N = 320 the emitted
spectrum holds 160 magnitudes, not floor(N/2)+1 = 161. -/
theorem C6_cex_dft_print_bin_count :
    (dft_print_mags (fun _ => 0) 320).length ≠ 320 / 2 + 1 := by
  simp [dft_print_mags]

/-- Claim C6 (amended): the dual-sensor variant's spectra contain
floor(N/2)+1 magnitudes (bins k = 0..N/2 inclusive), while the rolling
hysteresis variant's spectra contain N/2 magnitudes (bins k = 1..N/2, DC
omitted), for every input window and capacity. -/
theorem C6_spectrum_bin_counts (x : ℕ → ℝ) (N : ℕ) :
    (dft_mags_dc_removed x N).length = N / 2 + 1 ∧
      (dft_print_mags x N).length = N / 2 := by
  constructor
  · simp [dft_mags_dc_removed]
  · simp [dft_print_mags]

/-- Helper: one tick of the constant-temperature logger advances the deadline
by exactly SAMPLE_MS, modulo the uint64 wraparound. -/
theorem forced2gas_tick_next (st : Forced2Gas.St) (r1 r2 : Option ℝ) (t : ℕ) :
    (Forced2Gas.tick st r1 r2 t).1.next = (st.next + Forced2Gas.SAMPLE_MS) % U64 := rfl

/-- Helper: one tick of the dual-sensor FFT loop advances the deadline by
exactly TS_MS, modulo the uint64 wraparound, on both branches. -/
theorem forced2fft_tick_next (st : Forced2Fft.St) (r1 r2 : Option ℝ) (t : ℕ) :
    (Forced2Fft.tick st r1 r2 t).1.next_tick = (st.next_tick + Forced2Fft.TS_MS) % U64 := by
  unfold Forced2Fft.tick
  dsimp only
  split <;> rfl

/-- Helper: folding the constant-temperature logger over any input list moves
the deadline from d to (d + len * SAMPLE_MS) mod 2^64. -/
theorem forced2gas_runTicks_next (inputs : List (Option ℝ × Option ℝ × ℕ)) :
    ∀ st : Forced2Gas.St, st.next < U64 →
      (Forced2Gas.runTicks inputs st).next =
        (st.next + inputs.length * Forced2Gas.SAMPLE_MS) % U64 := by
  induction inputs with
  | nil =>
      intro st h
      simp [Forced2Gas.runTicks, Nat.mod_eq_of_lt h]
  | cons i t ih =>
      intro st h
      have hstep : (Forced2Gas.tick st i.1 i.2.1 i.2.2).1.next =
          (st.next + Forced2Gas.SAMPLE_MS) % U64 := rfl
      have hlt : (Forced2Gas.tick st i.1 i.2.1 i.2.2).1.next < U64 := by
        rw [hstep]; exact Nat.mod_lt _ (by decide)
      have := ih (Forced2Gas.tick st i.1 i.2.1 i.2.2).1 hlt
      calc (Forced2Gas.runTicks (i :: t) st).next
          = (Forced2Gas.runTicks t (Forced2Gas.tick st i.1 i.2.1 i.2.2).1).next := rfl
        _ = ((st.next + Forced2Gas.SAMPLE_MS) % U64 + t.length * Forced2Gas.SAMPLE_MS) % U64 := by
              rw [this, hstep]
        _ = (st.next + (i :: t).length * Forced2Gas.SAMPLE_MS) % U64 := by
              rw [Nat.mod_add_mod, List.length_cons]
              congr 1
              ring

/-- Helper: folding the dual-sensor FFT loop over any input list moves the
deadline from d to (d + len * TS_MS) mod 2^64. -/
theorem forced2fft_runTicks_next (inputs : List (Option ℝ × Option ℝ × ℕ)) :
    ∀ st : Forced2Fft.St, st.next_tick < U64 →
      (Forced2Fft.runTicks inputs st).next_tick =
        (st.next_tick + inputs.length * Forced2Fft.TS_MS) % U64 := by
  induction inputs with
  | nil =>
      intro st h
      simp [Forced2Fft.runTicks, Nat.mod_eq_of_lt h]
  | cons i t ih =>
      intro st h
      have hstep := forced2fft_tick_next st i.1 i.2.1 i.2.2
      have hlt : (Forced2Fft.tick st i.1 i.2.1 i.2.2).1.next_tick < U64 := by
        rw [hstep]; exact Nat.mod_lt _ (by decide)
      have := ih (Forced2Fft.tick st i.1 i.2.1 i.2.2).1 hlt
      calc (Forced2Fft.runTicks (i :: t) st).next_tick
          = (Forced2Fft.runTicks t (Forced2Fft.tick st i.1 i.2.1 i.2.2).1).next_tick := rfl
        _ = ((st.next_tick + Forced2Fft.TS_MS) % U64 + t.length * Forced2Fft.TS_MS) % U64 := by
              rw [this, hstep]
        _ = (st.next_tick + (i :: t).length * Forced2Fft.TS_MS) % U64 := by
              rw [Nat.mod_add_mod, List.length_cons]
              congr 1
              ring

/-- Claim C9: in the scheduling loops the next deadline is always the previous
deadline plus the configured tick interval (never current time plus the
interval), so starting from t0 the deadline after i ticks is t0 + i * interval
(modulo the uint64 counter width); jitter does not compound. Stated for both
cited loops: the constant-temperature logger (200 ms) and the dual-sensor FFT
loop (50 ms). -/
theorem C9_deadline_drift_free (g f : List (Option ℝ × Option ℝ × ℕ)) (t0 : ℕ)
    (h : t0 < U64) :
    (∀ (st : Forced2Gas.St) (r1 r2 : Option ℝ) (t : ℕ),
        (Forced2Gas.tick st r1 r2 t).1.next = (st.next + Forced2Gas.SAMPLE_MS) % U64) ∧
    (∀ (st : Forced2Fft.St) (r1 r2 : Option ℝ) (t : ℕ),
        (Forced2Fft.tick st r1 r2 t).1.next_tick = (st.next_tick + Forced2Fft.TS_MS) % U64) ∧
    (Forced2Gas.runTicks g ⟨0, t0⟩).next = (t0 + g.length * Forced2Gas.SAMPLE_MS) % U64 ∧
    (Forced2Fft.runTicks f ⟨fun _ => 0, fun _ => 0, 0, 0, t0⟩).next_tick =
      (t0 + f.length * Forced2Fft.TS_MS) % U64 :=
  ⟨forced2gas_tick_next, forced2fft_tick_next,
    forced2gas_runTicks_next g ⟨0, t0⟩ h,
    forced2fft_runTicks_next f ⟨fun _ => 0, fun _ => 0, 0, 0, t0⟩ h⟩

/-- Witness for C9 with t0 = 0 and three-tick input lists. -/
theorem C9_deadline_drift_free_witness :
    0 < U64 ∧
      ((∀ (st : Forced2Gas.St) (r1 r2 : Option ℝ) (t : ℕ),
          (Forced2Gas.tick st r1 r2 t).1.next = (st.next + Forced2Gas.SAMPLE_MS) % U64) ∧
       (∀ (st : Forced2Fft.St) (r1 r2 : Option ℝ) (t : ℕ),
          (Forced2Fft.tick st r1 r2 t).1.next_tick = (st.next_tick + Forced2Fft.TS_MS) % U64) ∧
       (Forced2Gas.runTicks ticks3 ⟨0, 0⟩).next =
         (0 + ticks3.length * Forced2Gas.SAMPLE_MS) % U64 ∧
       (Forced2Fft.runTicks ticks3 ⟨fun _ => 0, fun _ => 0, 0, 0, 0⟩).next_tick =
         (0 + ticks3.length * Forced2Fft.TS_MS) % U64) :=
  ⟨by decide, C9_deadline_drift_free ticks3 ticks3 0 (by decide)⟩

/-- Claim C10: in the rolling multi-cycle spectral variant, a completed cycle
emits an FFT record exactly when the cycle identifier is past warmup, the
rolling window is filled, and the identifier is an exact multiple of
FFT_STRIDE = 10; every completed cycle emits its hysteresis record. -/
theorem C10_fft_stride (meas : ℕ → Option ℝ) (base : ℕ) (st : Part001.St) :
    match Part001.cycleStep meas base st with
    | none => True
    | some (st2, recs) =>
        (recs.any fun r => r.tag == 1) =
          (decide (Part001.WARMUP_CYCLES < st2.cycle_id) && st2.fft_filled &&
            (st2.cycle_id % Part001.FFT_STRIDE == 0)) ∧
        (recs.any fun r => r.tag == 0) = true := by
  unfold Part001.cycleStep
  cases Part001.collectStep meas base with
  | none => exact trivial
  | some lowv =>
      cases Part001.collectStep meas (base + Part001.S) with
      | none => exact trivial
      | some highv =>
          dsimp only
          split
          · next hcond =>
              obtain ⟨h1, h2, h3⟩ := hcond
              constructor
              · simp [Part001.Rec.tag, h1, h2, h3]
              · simp [Part001.Rec.tag]
          · next hcond =>
              constructor
              · refine (Bool.eq_false_iff.mpr ?_).symm
                intro hb
                simp only [Bool.and_eq_true, decide_eq_true_eq, beq_iff_eq] at hb
                exact hcond ⟨hb.1.1, hb.1.2, hb.2⟩
              · simp [Part001.Rec.tag]

/-- Claim C1 counterexample: in the rolling hysteresis variant a single
failed sample is fatal: with every measurement failing, the very first cycle
terminates the acquisition loop (the source jumps to `out`), so a failed
sample is not resolved by hold-last or drop. -/
theorem C1_cex_part001_fatal :
    (Part001.run oracleFail 1 Part001.st0).2 = none := rfl

/-- Claim C1 (amended): a CommFailure is non-fatal in the dual-sensor loops —
the constant-temperature logger, the dual FFT loop (hold-last), the ratio
loop (drop), and the sweep segment loop (record suppression) each proceed to
the next tick when every sample of a tick fails, the sweep segment ending
only when its configured running time elapses — and in the thermal-profile
loop a zero-field read leaves the loop running; but a failed transaction
terminates the thermal-profile loop, and in the rolling hysteresis variant
any failed sample terminates the loop. -/
theorem C1_commfail_policy :
    (∀ (st : Forced2Gas.St) (t : ℕ),
        (Forced2Gas.tick st none none t).1.sample = st.sample + 1) ∧
    (∀ (st : Forced2Fft.St) (t : ℕ),
        (Forced2Fft.tick st none none t).1.next_tick =
          (st.next_tick + Forced2Fft.TS_MS) % U64) ∧
    (∀ (t0 : ℕ) (st : Ratio2Gas.St) (now : ℕ),
        (Ratio2Gas.tick t0 st now none none).1.next = (st.next + Ratio2Gas.TS_MS) % U64) ∧
    (∀ (half rel t : ℕ) (rest : List Sweep2.Obs),
        Sweep2.segLoop half (⟨rel, none, none, t⟩ :: rest) =
          if rel < Sweep2.run_ms half then Sweep2.segLoop half rest else []) ∧
    (∀ st : ProfileFft.St, ProfileFft.step st .nodata = some (st, [])) ∧
    (∀ st : ProfileFft.St, ProfileFft.step st .err = none) ∧
    (Part001.run oracleFail 1 Part001.st0).2 = none := by
  refine ⟨fun st t => rfl, fun st t => forced2fft_tick_next st none none t, ?_, ?_,
    fun st => rfl, fun st => rfl, rfl⟩
  · intro t0 st now
    unfold Ratio2Gas.tick
    dsimp only
    split
    · split <;> rfl
    · rfl
  · intro half rel t rest
    have he : Sweep2.segLoop half (⟨rel, none, none, t⟩ :: rest) =
        if rel < Sweep2.run_ms half then
          Sweep2.tickRecs half ⟨rel, none, none, t⟩ ++ Sweep2.segLoop half rest
        else [] := rfl
    rw [he]
    split
    · simp [Sweep2.tickRecs]
    · rfl

/-- Claim C2 (code bug): in the ratio variant the phase sample counters are
incremented only for channel 1 but divide both channels' sums. On a period in
which channel 2 misses one low-phase sample and channel 1 misses none, the
emitted channel-2 ratio is 5/2, whereas the ratio of the means of the values
channel 2 actually accepted is 2; channel 1's emitted ratio is the correct 2. -/
theorem C2_ratio_shared_counter_bug :
    ((Ratio2Gas.runTicks 0 ratioTrace (Ratio2Gas.st0 0)).2.map Ratio2Gas.Rec.value).getD 0 0
        = 2 ∧
    ((Ratio2Gas.runTicks 0 ratioTrace (Ratio2Gas.st0 0)).2.map Ratio2Gas.Rec.value).getD 1 0
        = 5 / 2 ∧
    ((200 + 200 + 200 + 200 : ℝ) / 4) / ((100 + 100 + 100 + 100) / 4) = 2 ∧
    (5 / 2 : ℝ) ≠ 2 := by
  refine ⟨?_, ?_, by norm_num, by norm_num⟩
  · simp only [Ratio2Gas.runTicks, Ratio2Gas.tick, Ratio2Gas.st0, ratioTrace,
      List.foldl_cons, List.foldl_nil]
    norm_num [Ratio2Gas.SQ_PERIOD_MS, Ratio2Gas.HALF_MS, Ratio2Gas.T_LOW_C,
      Ratio2Gas.T_HIGH_C, Ratio2Gas.TS_MS]
  · simp only [Ratio2Gas.runTicks, Ratio2Gas.tick, Ratio2Gas.st0, ratioTrace,
      List.foldl_cons, List.foldl_nil]
    norm_num [Ratio2Gas.SQ_PERIOD_MS, Ratio2Gas.HALF_MS, Ratio2Gas.T_LOW_C,
      Ratio2Gas.T_HIGH_C, Ratio2Gas.TS_MS]

/-- Claim C5 (code bug): in the dual FFT loop, hold-last at a tick whose write
index has just wrapped to 0 stores the window's stale slot-0 value (from
FFT_N ticks earlier), not the channel's previous accepted value: in state
`stWrap` the previous accepted value is 40 (slot 39) but a failing channel-1
sample stores 1 (slot 0's old value). -/
theorem C5_holdlast_wrap_bug :
    (Forced2Fft.tick stWrap none (some 0) 0).1.x1 0 = 1 ∧
    stWrap.x1 39 = 40 ∧ (1 : ℝ) ≠ 40 := by
  refine ⟨?_, by norm_num [stWrap], by norm_num⟩
  unfold Forced2Fft.tick Forced2Fft.storeChannel
  norm_num [stWrap, Forced2Fft.FFT_N]

/-- Claim C3 counterexample: the hysteresis strategy has no warmup
suppression: with every sample succeeding, the very first completed cycle of
the rolling hysteresis variant already emits its FEATURE_CYCLE record, with
cycle identifier 1 within the warmup span WARMUP_CYCLES = 2. -/
theorem C3_cex_hysteresis_emitted_in_warmup :
    (Part001.run oracle0 1 Part001.st0).1.map
        (fun r => (Part001.Rec.tag r, Part001.Rec.cycle r)) = [(0, 1)] ∧
      1 ≤ Part001.WARMUP_CYCLES :=
  ⟨rfl, by decide⟩

/-- Helper: in the sweep segment loop, a predicate false on every sample line
counts zero records, since the loop emits sample lines only. -/
theorem sweep_segLoop_countP (half : ℕ) (p : Sweep2.Rec → Bool)
    (hp : ∀ t a hc g, p (Sweep2.Rec.sample t a hc g) = false) :
    ∀ obs : List Sweep2.Obs, (Sweep2.segLoop half obs).countP p = 0 := by
  intro obs
  induction obs with
  | nil => rfl
  | cons o rest ih =>
      unfold Sweep2.segLoop
      split
      · rw [List.countP_append, ih]
        unfold Sweep2.tickRecs
        dsimp only
        cases o.r1 <;> cases o.r2 <;> simp [List.countP_cons, hp]
      · rfl

/-- Helper: each sweep segment contains exactly one SWEEP header. -/
theorem sweep_segment_one_sweep (half : ℕ) (obs : List Sweep2.Obs) :
    (Sweep2.segment half obs).countP (fun r => r.tag == 0) = 1 := by
  unfold Sweep2.segment
  rw [List.countP_cons, List.countP_append,
    sweep_segLoop_countP half _ (fun t a hc g => rfl) obs]
  simp [List.countP_cons, Sweep2.Rec.tag]

/-- Helper: each sweep segment contains exactly one ENDSWEEP trailer. -/
theorem sweep_segment_one_endsweep (half : ℕ) (obs : List Sweep2.Obs) :
    (Sweep2.segment half obs).countP (fun r => r.tag == 2) = 1 := by
  unfold Sweep2.segment
  rw [List.countP_cons, List.countP_append,
    sweep_segLoop_countP half _ (fun t a hc g => rfl) obs]
  simp [List.countP_cons, Sweep2.Rec.tag]

/-- Helper: the sweep run emits one SWEEP and one ENDSWEEP per remaining
half-period entry, whatever the observation streams. -/
theorem sweep_segmentsFrom_counts (halves : List ℕ) :
    ∀ (obs : ℕ → List Sweep2.Obs) (i : ℕ),
      (Sweep2.segmentsFrom halves obs i).countP (fun r => r.tag == 0) = halves.length ∧
      (Sweep2.segmentsFrom halves obs i).countP (fun r => r.tag == 2) = halves.length := by
  induction halves with
  | nil => intro obs i; exact ⟨rfl, rfl⟩
  | cons h t ih =>
      intro obs i
      unfold Sweep2.segmentsFrom
      rw [List.countP_append, List.countP_append]
      have := ih obs (i + 1)
      rw [this.1, this.2, sweep_segment_one_sweep, sweep_segment_one_endsweep]
      simp [Nat.add_comm]

/-- Claim C3 (amended): warmup suppression holds for the symmetric-profile
difference strategy — every FEATURE_VEC record carries a cycle identifier
past WARMUP_CYCLES = 2 — but not for the other two: the hysteresis vector is
emitted from the first completed cycle (identifier 1 ≤ W = 2), and the ratio
strategy emits at the very first period rollover with no warmup gate at all. -/
theorem C3_warmup_by_strategy :
    (∀ (st : ProfileFft.St) (res : ProfileFft.SampleRes),
        match ProfileFft.step st res with
        | none => True
        | some (_, recs) => recs.all ProfileFft.Rec.warmup_ok = true) ∧
    ((Part001.run oracle0 1 Part001.st0).1.map
        (fun r => (Part001.Rec.tag r, Part001.Rec.cycle r)) = [(0, 1)] ∧
      1 ≤ Part001.WARMUP_CYCLES) ∧
    (Ratio2Gas.runTicks 0 ratioTrace (Ratio2Gas.st0 0)).2.length = 2 := by
  refine ⟨?_, ⟨rfl, by decide⟩, rfl⟩
  intro st res
  cases res with
  | err => exact trivial
  | nodata => exact rfl
  | val g =>
      unfold ProfileFft.step
      dsimp only
      by_cases hci : ProfileFft.profile_len ≤ st.cycle_index + 1
      · rw [if_pos hci]
        by_cases hcid : ProfileFft.WARMUP_CYCLES < st.cycle_id + 1
        · rw [if_pos hcid]
          simp [ProfileFft.Rec.warmup_ok, hcid]
        · rw [if_neg hcid]
          simp [ProfileFft.Rec.warmup_ok]
      · rw [if_neg hci]
        simp [ProfileFft.Rec.warmup_ok]

/-- Claim C4 counterexample: the sweep loop does not discard the warmup
portion: with the first observed tick of a 50 ms segment at segment-relative
time 0 — inside the warmup portion of 3 cycles = 300 ms — and channel 1
succeeding, the segment output already contains a per-tick sample record
between its SWEEP and ENDSWEEP markers. -/
theorem C4_cex_sweep_sample_in_warmup :
    (Sweep2.segment 50 obsWarm).map Sweep2.Rec.tag = [0, 1, 2] ∧
      0 < Sweep2.warmup_ms 50 :=
  ⟨rfl, by decide⟩

/-- Claim C4 (amended): for every configured list of half-periods, exactly
one SWEEP and one ENDSWEEP record are emitted per list entry; per-tick sample
records, however, are emitted for every successful sample from the segment's
first tick onward, including the warmup portion (warmup only extends the
segment's duration, no output is discarded). -/
theorem C4_sweep_framing :
    (∀ (halves : List ℕ) (obs : ℕ → List Sweep2.Obs),
        (Sweep2.runAll halves obs).countP (fun r => r.tag == 0) = halves.length ∧
        (Sweep2.runAll halves obs).countP (fun r => r.tag == 2) = halves.length) ∧
    ((Sweep2.segment 50 obsWarm).map Sweep2.Rec.tag = [0, 1, 2] ∧
      0 < Sweep2.warmup_ms 50) :=
  ⟨fun halves obs => sweep_segmentsFrom_counts halves obs 0, rfl, by decide⟩

end GCMox
